import Mathlib

/-!
Verification of the voice-assistant core: a shallow embedding of the
wake-word gate (`openwakeword_processor.py`), the session-state tracker and
mute-command listener (`voice_assistant_state.py`), the timer manager
(`timer_manager.py`) and the interrupt handler (`interrupt_handler.py`),
with theorems settling the frozen claims about them.

Modelling conventions: Python floats become `ℚ`; audio byte strings become
`List Nat`; the opaque wake-word scorer (`Model.predict` followed by the
threshold test) is a parameter `wakes : List Nat → Bool` on a chunk;
asyncio tasks become explicit identifiers, with a `cancelled`/`done` flag
or a list of live task ids, and a cancelled task's resumption runs its
`CancelledError` branch while only an uncancelled task can complete its
sleep and run the normal path.
-/

/-- The Pipecat frame kinds the gating components dispatch on.  `control`
stands for every frame that is none of the four user-input kinds
(tool-configuration frames, bot output, and so on). -/
inductive Frame where
  | inputAudioRaw (audio : List Nat) (sampleRate : Nat) (numChannels : Nat)
  | transcription (text : String)
  | userStartedSpeaking
  | userStoppedSpeaking
  | cancel
  | control
  deriving DecidableEq

/-- The tuple of user-input frame types blocked when muted in
`OpenWakeWordProcessor.process_frame`: `InputAudioRawFrame`,
`TranscriptionFrame`, `UserStartedSpeakingFrame`, `UserStoppedSpeakingFrame`. -/
def isUserInputFrame : Frame → Bool
  | .inputAudioRaw _ _ _ => true
  | .transcription _ => true
  | .userStartedSpeaking => true
  | .userStoppedSpeaking => true
  | _ => false

/-- The tuple of non-audio user-input frame types blocked when not awake:
`TranscriptionFrame`, `UserStartedSpeakingFrame`, `UserStoppedSpeakingFrame`. -/
def isNonAudioUserInput : Frame → Bool
  | .transcription _ => true
  | .userStartedSpeaking => true
  | .userStoppedSpeaking => true
  | _ => false

/-- State of `OpenWakeWordProcessor`: the `_is_awake` and `_is_muted` flags,
the `_audio_buffer` byte buffer, the `_keepalive_task` handle (as a task id),
plus bookkeeping for the asyncio tasks: `liveKeepalives` is the list of
keepalive task ids created and neither cancelled nor naturally completed,
and `nextTaskId` numbers task creations. -/
structure GateState where
  is_awake : Bool
  is_muted : Bool
  audio_buffer : List Nat
  keepalive_task : Option Nat
  liveKeepalives : List Nat
  nextTaskId : Nat
  deriving DecidableEq

/-- The `if self._keepalive_task: self._keepalive_task.cancel()` step:
cancelling the held handle removes it from the live tasks. -/
def cancelKeepalive (s : GateState) : GateState :=
  match s.keepalive_task with
  | some h => { s with liveKeepalives := s.liveKeepalives.filter (fun i => i ≠ h) }
  | none => s

/-- `OpenWakeWordProcessor._wake_up`: set `_is_awake` (idempotent), cancel the
prior keepalive task if any, then create a fresh keepalive task and store its
handle. -/
def wakeUp (s : GateState) : GateState :=
  let s1 := cancelKeepalive { s with is_awake := true }
  { s1 with
      liveKeepalives := s1.nextTaskId :: s1.liveKeepalives,
      keepalive_task := some s1.nextTaskId,
      nextTaskId := s1.nextTaskId + 1 }

/-- The `while len(self._audio_buffer) >= self._chunk_size_bytes` loop of
`_process_audio`: slice a chunk off the buffer, score it, and on a score at
or above threshold run `_wake_up`.  `wakes` is the opaque scorer-plus-threshold
test; the loop is fueled, and a fuel of the buffer length suffices for any
positive chunk size. -/
def drainLoop (wakes : List Nat → Bool) (chunkBytes : Nat) : Nat → GateState → GateState
  | 0, s => s
  | fuel + 1, s =>
    if chunkBytes ≤ s.audio_buffer.length then
      let chunk := s.audio_buffer.take chunkBytes
      let s1 := { s with audio_buffer := s.audio_buffer.drop chunkBytes }
      drainLoop wakes chunkBytes fuel (if wakes chunk then wakeUp s1 else s1)
    else s

/-- `OpenWakeWordProcessor._process_audio`: non-16kHz or non-mono audio is
dropped before buffering; otherwise the frame's bytes are appended to the
buffer and all complete chunks are scored. -/
def processAudio (wakes : List Nat → Bool) (chunkBytes : Nat)
    (s : GateState) (audio : List Nat) (sampleRate numChannels : Nat) : GateState :=
  if sampleRate ≠ 16000 then s
  else if numChannels ≠ 1 then s
  else
    let s1 := { s with audio_buffer := s.audio_buffer ++ audio }
    drainLoop wakes chunkBytes s1.audio_buffer.length s1

/-- `OpenWakeWordProcessor.process_frame`: when muted every user-input frame
is dropped before chunking; an audio frame is scored and then forwarded
exactly when `_is_awake` holds after scoring; a non-audio user-input frame is
dropped when not awake; every other frame is forwarded.  The second component
is the frame pushed downstream, if any. -/
def processFrame (wakes : List Nat → Bool) (chunkBytes : Nat)
    (s : GateState) (f : Frame) : GateState × Option Frame :=
  if s.is_muted && isUserInputFrame f then (s, none)
  else
    match f with
    | .inputAudioRaw audio sr ch =>
      let s1 := processAudio wakes chunkBytes s audio sr ch
      (s1, if s1.is_awake then some (Frame.inputAudioRaw audio sr ch) else none)
    | f' =>
      if !s.is_awake && isNonAudioUserInput f' then (s, none)
      else (s, some f')

/-- `OpenWakeWordProcessor.set_muted`: store the flag; on muting also clear
`_is_awake` and cancel the keepalive task. -/
def setMuted (s : GateState) (muted : Bool) : GateState :=
  if muted then cancelKeepalive { s with is_muted := muted, is_awake := false }
  else { s with is_muted := muted }

/-- `OpenWakeWordProcessor.go_to_sleep`: when awake, clear `_is_awake`, cancel
the keepalive task and drop the handle. -/
def goToSleep (s : GateState) : GateState :=
  if s.is_awake then
    { cancelKeepalive { s with is_awake := false } with keepalive_task := none }
  else s

/-- Natural completion of the keepalive task `id` (`_keepalive` running past
its sleep): only a live (uncancelled, not yet completed) task can do so; it
clears `_is_awake` and is no longer outstanding.  A cancelled keepalive task
instead raises `CancelledError`, whose handler does nothing. -/
def expireKeepalive (s : GateState) (id : Nat) : GateState :=
  if s.liveKeepalives.contains id then
    { s with is_awake := false, liveKeepalives := s.liveKeepalives.filter (fun i => i ≠ id) }
  else s

/-- The events that drive the wake gate: an incoming frame, the natural
expiry of a keepalive task, a mute/unmute command, and the interrupt
handler's `go_to_sleep` call. -/
inductive GEvent where
  | frame (f : Frame)
  | keepaliveExpiry (id : Nat)
  | muteCmd (b : Bool)
  | interruptSleep

/-- One step of the wake gate under an event. -/
def stepGate (wakes : List Nat → Bool) (chunkBytes : Nat) (s : GateState) : GEvent → GateState
  | .frame f => (processFrame wakes chunkBytes s f).1
  | .keepaliveExpiry id => expireKeepalive s id
  | .muteCmd b => setMuted s b
  | .interruptSleep => goToSleep s

/-- Initial gate state: asleep, unmuted, empty buffer, no keepalive task. -/
def gateInit : GateState :=
  { is_awake := false, is_muted := false, audio_buffer := [],
    keepalive_task := none, liveKeepalives := [], nextTaskId := 0 }

/-- Run the wake gate over a sequence of events from the initial state. -/
def runGate (wakes : List Nat → Bool) (chunkBytes : Nat) (evs : List GEvent) : GateState :=
  evs.foldl (stepGate wakes chunkBytes) gateInit

/-- Keepalive-task invariant: at most one keepalive task is outstanding, and
any outstanding one is the held handle. -/
def KInv (s : GateState) : Prop :=
  s.liveKeepalives.length ≤ 1 ∧ ∀ id ∈ s.liveKeepalives, s.keepalive_task = some id

lemma cancelKeepalive_fields (s : GateState) :
    (cancelKeepalive s).is_awake = s.is_awake ∧
    (cancelKeepalive s).is_muted = s.is_muted ∧
    (cancelKeepalive s).audio_buffer = s.audio_buffer ∧
    (cancelKeepalive s).keepalive_task = s.keepalive_task ∧
    (cancelKeepalive s).nextTaskId = s.nextTaskId := by
  rcases hk : s.keepalive_task with _ | hdl <;> simp [cancelKeepalive, hk]

lemma KInv_cancelKeepalive_live (s : GateState) (h : KInv s) :
    (cancelKeepalive s).liveKeepalives = [] := by
  rcases hk : s.keepalive_task with _ | hdl <;> simp only [cancelKeepalive, hk]
  · cases hl : s.liveKeepalives with
    | nil => rfl
    | cons a l =>
      have ha := h.2 a (by rw [hl]; exact List.mem_cons_self a l)
      rw [hk] at ha
      cases ha
  · rw [List.filter_eq_nil_iff]
    intro a ha
    have := h.2 a ha
    rw [hk] at this
    simp only [Option.some.injEq] at this
    simp [this]

lemma wakeUp_live (s : GateState) (h : KInv s) :
    (wakeUp s).liveKeepalives = [s.nextTaskId] ∧
    (wakeUp s).keepalive_task = some s.nextTaskId ∧
    (wakeUp s).nextTaskId = s.nextTaskId + 1 := by
  have h' : KInv { s with is_awake := true } := ⟨h.1, h.2⟩
  have hl := KInv_cancelKeepalive_live _ h'
  have hn := (cancelKeepalive_fields { s with is_awake := true }).2.2.2.2
  refine ⟨?_, ?_, ?_⟩ <;> simp [wakeUp, hl, hn]

lemma KInv_wakeUp (s : GateState) (h : KInv s) : KInv (wakeUp s) := by
  have hw := wakeUp_live s h
  refine ⟨?_, ?_⟩
  · rw [hw.1]; simp
  · intro id hid
    rw [hw.1] at hid
    simp only [List.mem_singleton] at hid
    rw [hw.2.1, hid]

lemma KInv_filter_live (s : GateState) (h : KInv s) (p : Nat → Bool) :
    (s.liveKeepalives.filter p).length ≤ 1 ∧
    ∀ id ∈ s.liveKeepalives.filter p, s.keepalive_task = some id :=
  ⟨le_trans (List.filter_sublist _).length_le h.1,
   fun id hid => h.2 id (List.mem_of_mem_filter hid)⟩

lemma KInv_drainLoop (wakes : List Nat → Bool) (chunkBytes : Nat) :
    ∀ (fuel : Nat) (s : GateState), KInv s → KInv (drainLoop wakes chunkBytes fuel s) := by
  intro fuel
  induction fuel with
  | zero => intro s h; exact h
  | succ n ih =>
    intro s h
    unfold drainLoop
    split
    · apply ih
      split
      · exact KInv_wakeUp _ ⟨h.1, h.2⟩
      · exact ⟨h.1, h.2⟩
    · exact h

lemma KInv_processAudio (wakes : List Nat → Bool) (chunkBytes : Nat)
    (s : GateState) (audio : List Nat) (sr ch : Nat) (h : KInv s) :
    KInv (processAudio wakes chunkBytes s audio sr ch) := by
  unfold processAudio
  split
  · exact h
  · split
    · exact h
    · exact KInv_drainLoop wakes chunkBytes _ _ ⟨h.1, h.2⟩

lemma processFrame_audio (wakes : List Nat → Bool) (chunkBytes : Nat)
    (s : GateState) (audio : List Nat) (sr ch : Nat) :
    processFrame wakes chunkBytes s (.inputAudioRaw audio sr ch) =
      if s.is_muted && isUserInputFrame (.inputAudioRaw audio sr ch) then (s, none)
      else
        let s1 := processAudio wakes chunkBytes s audio sr ch
        (s1, if s1.is_awake then some (Frame.inputAudioRaw audio sr ch) else none) := rfl

/-- `Frame.inputAudioRaw` and nothing else. -/
def isAudioFrame : Frame → Bool
  | .inputAudioRaw _ _ _ => true
  | _ => false

lemma processFrame_nonaudio (wakes : List Nat → Bool) (chunkBytes : Nat)
    (s : GateState) (f : Frame) (hf : isAudioFrame f = false) :
    processFrame wakes chunkBytes s f =
      if s.is_muted && isUserInputFrame f then (s, none)
      else if !s.is_awake && isNonAudioUserInput f then (s, none)
      else (s, some f) := by
  cases f with
  | inputAudioRaw a sr ch => simp [isAudioFrame] at hf
  | transcription t => rfl
  | userStartedSpeaking => rfl
  | userStoppedSpeaking => rfl
  | cancel => rfl
  | control => rfl

lemma KInv_processFrame (wakes : List Nat → Bool) (chunkBytes : Nat)
    (s : GateState) (f : Frame) (h : KInv s) :
    KInv (processFrame wakes chunkBytes s f).1 := by
  cases f with
  | inputAudioRaw audio sr ch =>
    rw [processFrame_audio]
    split
    · exact h
    · exact KInv_processAudio wakes chunkBytes s audio sr ch h
  | transcription t =>
    rw [processFrame_nonaudio wakes chunkBytes s (Frame.transcription t) rfl]
    split
    · exact h
    · split <;> exact h
  | userStartedSpeaking =>
    rw [processFrame_nonaudio wakes chunkBytes s Frame.userStartedSpeaking rfl]
    split
    · exact h
    · split <;> exact h
  | userStoppedSpeaking =>
    rw [processFrame_nonaudio wakes chunkBytes s Frame.userStoppedSpeaking rfl]
    split
    · exact h
    · split <;> exact h
  | cancel =>
    rw [processFrame_nonaudio wakes chunkBytes s Frame.cancel rfl]
    split
    · exact h
    · split <;> exact h
  | control =>
    rw [processFrame_nonaudio wakes chunkBytes s Frame.control rfl]
    split
    · exact h
    · split <;> exact h

lemma KInv_expireKeepalive (s : GateState) (id : Nat) (h : KInv s) :
    KInv (expireKeepalive s id) := by
  unfold expireKeepalive
  split
  · exact KInv_filter_live s h _
  · exact h

lemma KInv_setMuted (s : GateState) (b : Bool) (h : KInv s) : KInv (setMuted s b) := by
  unfold setMuted
  split
  · rcases hk : s.keepalive_task with _ | hdl <;> simp only [cancelKeepalive, hk]
    · refine ⟨h.1, ?_⟩
      intro i hi
      have hsome := h.2 i hi
      rw [hk] at hsome
      exact hsome
    · refine ⟨le_trans (List.filter_sublist _).length_le h.1, ?_⟩
      intro i hi
      have hsome := h.2 i (List.mem_of_mem_filter hi)
      rw [hk] at hsome
      exact hsome
  · exact ⟨h.1, h.2⟩

lemma KInv_goToSleep (s : GateState) (h : KInv s) : KInv (goToSleep s) := by
  unfold goToSleep
  split
  · rcases hk : s.keepalive_task with _ | hdl <;> simp only [cancelKeepalive, hk]
    · refine ⟨h.1, ?_⟩
      intro i hi
      have hsome := h.2 i hi
      rw [hk] at hsome
      exact hsome
    · refine ⟨le_trans (List.filter_sublist _).length_le h.1, ?_⟩
      intro i hi
      have hm := List.mem_of_mem_filter hi
      have hne := List.of_mem_filter hi
      have hsome := h.2 i hm
      rw [hk] at hsome
      simp only [Option.some.injEq] at hsome
      simp only [decide_eq_true_eq] at hne
      exact absurd hsome.symm hne
  · exact h

lemma KInv_stepGate (wakes : List Nat → Bool) (chunkBytes : Nat)
    (s : GateState) (ev : GEvent) (h : KInv s) :
    KInv (stepGate wakes chunkBytes s ev) := by
  cases ev with
  | frame f => exact KInv_processFrame wakes chunkBytes s f h
  | keepaliveExpiry id => exact KInv_expireKeepalive s id h
  | muteCmd b => exact KInv_setMuted s b h
  | interruptSleep => exact KInv_goToSleep s h

lemma KInv_gateInit : KInv gateInit := by
  refine ⟨?_, ?_⟩
  · simp [gateInit]
  · intro id hid
    simp [gateInit] at hid

lemma KInv_runGate (wakes : List Nat → Bool) (chunkBytes : Nat) (evs : List GEvent) :
    KInv (runGate wakes chunkBytes evs) := by
  unfold runGate
  have step : ∀ (l : List GEvent) (s : GateState), KInv s →
      KInv (l.foldl (stepGate wakes chunkBytes) s) := by
    intro l
    induction l with
    | nil => intro s h; exact h
    | cons e rest ih =>
      intro s h
      exact ih _ (KInv_stepGate wakes chunkBytes s e h)
  exact step evs gateInit KInv_gateInit

lemma isAudioFrame_eq_false_of_nonaudio (f : Frame) (h : isNonAudioUserInput f = true) :
    isAudioFrame f = false := by
  cases f <;> simp_all [isNonAudioUserInput, isAudioFrame]

lemma frame_not_user_input (f : Frame) (h : isUserInputFrame f = false) :
    isAudioFrame f = false ∧ isNonAudioUserInput f = false := by
  cases f <;> simp_all [isUserInputFrame, isAudioFrame, isNonAudioUserInput]

/-- C2: at most one keepalive task is ever outstanding: over every event
sequence the set of live keepalive tasks has size at most one; under the
invariant, a wake detection replaces the outstanding keepalive by exactly the
freshly created task (cancelling the prior one first); and the natural expiry
of a live keepalive clears the awake flag, returning the gate to standby. -/
theorem keepalive_at_most_one :
    (∀ (wakes : List Nat → Bool) (chunkBytes : Nat) (evs : List GEvent),
      (runGate wakes chunkBytes evs).liveKeepalives.length ≤ 1) ∧
    (∀ s : GateState, KInv s →
      (wakeUp s).liveKeepalives = [s.nextTaskId] ∧
      (wakeUp s).keepalive_task = some s.nextTaskId) ∧
    (∀ (s : GateState) (id : Nat), s.liveKeepalives.contains id = true →
      (expireKeepalive s id).is_awake = false ∧
      (expireKeepalive s id).liveKeepalives = s.liveKeepalives.filter (fun i => i ≠ id)) := by
  refine ⟨?_, ?_, ?_⟩
  · intro wakes cb evs
    exact (KInv_runGate wakes cb evs).1
  · intro s h
    exact ⟨(wakeUp_live s h).1, (wakeUp_live s h).2.1⟩
  · intro s id hid
    unfold expireKeepalive
    rw [if_pos hid]
    exact ⟨rfl, rfl⟩

/-- Witness for C2 at a concrete wake detection followed by its natural
expiry. -/
theorem keepalive_at_most_one_witness :
    (wakeUp gateInit).liveKeepalives = [0] ∧
    (expireKeepalive (wakeUp gateInit) 0).is_awake = false := by
  refine ⟨(keepalive_at_most_one.2.1 gateInit KInv_gateInit).1, ?_⟩
  exact (keepalive_at_most_one.2.2 (wakeUp gateInit) 0 (by decide)).1

/-- C1 counterexample: an asleep, unmuted gate that receives an audio frame
whose chunk triggers a wake detection forwards that very frame downstream,
because `_wake_up` runs inside `_process_audio` before the `_is_awake`
forwarding check; the claim says an Asleep gate never forwards the audio
event. -/
theorem wake_gate_asleep_audio_forwarded_cex :
    gateInit.is_awake = false ∧ gateInit.is_muted = false ∧
    (processFrame (fun _ => true) 2 gateInit (Frame.inputAudioRaw [0, 0] 16000 1)).2 =
      some (Frame.inputAudioRaw [0, 0] 16000 1) := by
  decide

/-- C1 (amended): when Muted, audio and all user-input frames are dropped
before chunking with the state untouched; when unmuted, an audio frame is
always chunked and scored, and it is forwarded exactly when the gate is Awake
after scoring (so the frame whose own chunk triggers detection is forwarded,
and while the gate remains Asleep it is dropped); non-audio user-input frames
are dropped when Asleep and pass when Awake; frames outside the user-input
kinds pass regardless of activation state. -/
theorem wake_gate_decision (wakes : List Nat → Bool) (chunkBytes : Nat)
    (s : GateState) (f : Frame) :
    (s.is_muted = true → isUserInputFrame f = true →
      processFrame wakes chunkBytes s f = (s, none)) ∧
    (∀ audio sr ch, s.is_muted = false → f = Frame.inputAudioRaw audio sr ch →
      processFrame wakes chunkBytes s f =
        (processAudio wakes chunkBytes s audio sr ch,
         if (processAudio wakes chunkBytes s audio sr ch).is_awake then some f else none)) ∧
    (s.is_muted = false → s.is_awake = false → isNonAudioUserInput f = true →
      processFrame wakes chunkBytes s f = (s, none)) ∧
    (s.is_muted = false → s.is_awake = true → isNonAudioUserInput f = true →
      processFrame wakes chunkBytes s f = (s, some f)) ∧
    (isUserInputFrame f = false →
      processFrame wakes chunkBytes s f = (s, some f)) := by
  refine ⟨?_, ?_, ?_, ?_, ?_⟩
  · intro hm hu
    unfold processFrame
    rw [if_pos (by rw [hm, hu]; rfl)]
  · intro audio sr ch hm hf
    subst hf
    rw [processFrame_audio]
    rw [if_neg (by rw [hm]; simp)]
  · intro hm ha hu
    rw [processFrame_nonaudio wakes chunkBytes s f (isAudioFrame_eq_false_of_nonaudio f hu)]
    rw [if_neg (by rw [hm]; simp)]
    rw [if_pos (by rw [ha, hu]; rfl)]
  · intro hm ha hu
    rw [processFrame_nonaudio wakes chunkBytes s f (isAudioFrame_eq_false_of_nonaudio f hu)]
    rw [if_neg (by rw [hm]; simp)]
    rw [if_neg (by rw [ha]; simp)]
  · intro hu
    have hx := frame_not_user_input f hu
    rw [processFrame_nonaudio wakes chunkBytes s f hx.1]
    rw [if_neg (by rw [hu]; simp)]
    rw [if_neg (by rw [hx.2]; simp)]

/-- Witness for C1's amended theorem at concrete frames: a muted gate drops a
transcription, and a control frame passes an asleep gate. -/
theorem wake_gate_decision_witness :
    processFrame (fun _ => false) 2 { gateInit with is_muted := true }
      (Frame.transcription "hi") = ({ gateInit with is_muted := true }, none) ∧
    processFrame (fun _ => false) 2 gateInit Frame.control =
      (gateInit, some Frame.control) :=
  ⟨(wake_gate_decision (fun _ => false) 2 { gateInit with is_muted := true }
      (Frame.transcription "hi")).1 rfl rfl,
   (wake_gate_decision (fun _ => false) 2 gateInit Frame.control).2.2.2.2 rfl⟩

/-- The session states of `VoiceAssistantStateTracker` (`STATE_*` constants).
The tracker's `STATE_ICONS` table covers exactly these seven, so the
`state not in STATE_ICONS` early return is unreachable over this closed
type. -/
inductive SState where
  | standby
  | listening
  | processing
  | speaking
  | idle
  | muted
  | offline
  deriving DecidableEq

/-- State of `VoiceAssistantStateTracker` relevant to `set_state`: the stored
`current_state`, the `_last_state_change` timestamp, the `_debounce_interval`,
and the `_connected` flag that gates the MQTT publish. -/
structure TrackerState where
  current_state : SState
  last_state_change : ℚ
  debounce_interval : ℚ
  connected : Bool
  deriving DecidableEq

/-- `VoiceAssistantStateTracker.set_state` at wall-clock time `now`: re-entry
into the current state is a no-op; a too-fast transition to a non-Offline
state is dropped with nothing updated; otherwise the state is stored and
timestamped, and when connected the new state is published (the second
component is the value pushed to the observer stream, `none` when nothing is
published). -/
def setState (s : TrackerState) (now : ℚ) (state : SState) : TrackerState × Option SState :=
  if state = s.current_state then (s, none)
  else if now - s.last_state_change < s.debounce_interval ∧ state ≠ SState.offline then
    (s, none)
  else
    let s1 := { s with current_state := state, last_state_change := now }
    if s1.connected then (s1, some state) else (s1, none)

/-- Tracker as constructed: state Offline, debounce 0.3 s. -/
def trackerInit (connected : Bool) : TrackerState :=
  { current_state := SState.offline, last_state_change := 0,
    debounce_interval := 3 / 10, connected := connected }

lemma setState_applies (s : TrackerState) (now : ℚ) (t : SState)
    (hne : t ≠ s.current_state)
    (hd : s.debounce_interval ≤ now - s.last_state_change ∨ t = SState.offline) :
    (setState s now t).1.current_state = t ∧
    (setState s now t).1.last_state_change = now ∧
    (s.connected = true → (setState s now t).2 = some t) := by
  have hdrop : ¬(now - s.last_state_change < s.debounce_interval ∧ t ≠ SState.offline) := by
    rcases hd with hge | hoff
    · intro hc
      exact absurd hc.1 (not_lt.mpr hge)
    · intro hc
      exact hc.2 hoff
  unfold setState
  rw [if_neg hne, if_neg hdrop]
  rcases hcon : s.connected with _ | _
  · rw [if_neg (by simp [hcon])]
    exact ⟨rfl, rfl, fun hc => absurd hc Bool.false_ne_true⟩
  · rw [if_pos (by simp [hcon])]
    exact ⟨rfl, rfl, fun _ => rfl⟩

/-- C3: a requested transition to a different state arriving within the
debounce interval of the last applied change, with a non-Offline target, is
dropped whole: stored state, timestamp and observer stream are unchanged;
otherwise the state is stored, timestamped with `now`, and (when the MQTT
client is connected) published. -/
theorem debounce_drop_or_apply (s : TrackerState) (now : ℚ) (t : SState)
    (hne : t ≠ s.current_state) :
    (now - s.last_state_change < s.debounce_interval ∧ t ≠ SState.offline →
      setState s now t = (s, none)) ∧
    (s.debounce_interval ≤ now - s.last_state_change ∨ t = SState.offline →
      (setState s now t).1.current_state = t ∧
      (setState s now t).1.last_state_change = now ∧
      (s.connected = true → (setState s now t).2 = some t)) := by
  constructor
  · intro hd
    unfold setState
    rw [if_neg hne, if_pos hd]
  · intro hd
    exact setState_applies s now t hne hd

/-- Concrete tracker state for witnesses: Standby applied at time 0, the
default 0.3 s debounce, MQTT connected. -/
def trackerStandbyEx : TrackerState :=
  { current_state := SState.standby, last_state_change := 0,
    debounce_interval := 3 / 10, connected := true }

/-- Witness for C3: from Standby at time 0, a Listening request at 0.1 s is
dropped, and one at 0.5 s is applied and published. -/
theorem debounce_drop_or_apply_witness :
    setState trackerStandbyEx (1 / 10) SState.listening = (trackerStandbyEx, none) ∧
    (setState trackerStandbyEx (1 / 2) SState.listening).2 = some SState.listening := by
  constructor
  · exact (debounce_drop_or_apply trackerStandbyEx (1 / 10) SState.listening (by decide)).1
      ⟨by norm_num [trackerStandbyEx], by decide⟩
  · exact ((debounce_drop_or_apply trackerStandbyEx (1 / 2) SState.listening (by decide)).2
      (Or.inl (by norm_num [trackerStandbyEx]))).2.2 rfl

/-- C4: requesting the state already stored is a no-op (no publish, no
timestamp update), while a transition to Offline from any other state is
applied and published with no debounce condition at all - in particular even
when the debounce window since the last change has not elapsed. -/
theorem same_state_noop_offline_forced (s : TrackerState) (now : ℚ) :
    setState s now s.current_state = (s, none) ∧
    (s.current_state ≠ SState.offline →
      (setState s now SState.offline).1.current_state = SState.offline ∧
      (setState s now SState.offline).1.last_state_change = now ∧
      (s.connected = true → (setState s now SState.offline).2 = some SState.offline)) := by
  constructor
  · unfold setState
    rw [if_pos rfl]
  · intro hne
    exact setState_applies s now SState.offline (Ne.symm hne) (Or.inr rfl)

/-- Concrete tracker state for the C4 witness: Speaking applied at time 0. -/
def trackerSpeakingEx : TrackerState :=
  { current_state := SState.speaking, last_state_change := 0,
    debounce_interval := 3 / 10, connected := true }

/-- Witness for C4: re-entering Speaking is a no-op, and Offline is applied at
0.1 s after the last change even though the 0.3 s debounce window is still
open. -/
theorem same_state_noop_offline_forced_witness :
    setState trackerSpeakingEx (1 / 10) SState.speaking = (trackerSpeakingEx, none) ∧
    (1 : ℚ) / 10 - trackerSpeakingEx.last_state_change <
      trackerSpeakingEx.debounce_interval ∧
    (setState trackerSpeakingEx (1 / 10) SState.offline).2 = some SState.offline := by
  refine ⟨?_, by norm_num [trackerSpeakingEx], ?_⟩
  · exact (same_state_noop_offline_forced trackerSpeakingEx (1 / 10)).1
  · exact ((same_state_noop_offline_forced trackerSpeakingEx (1 / 10)).2
      (by decide)).2.2 rfl

/-- The mute flag held by `VoiceAssistantStateTracker`. -/
structure MuteState where
  is_muted : Bool
  deriving DecidableEq

/-- One message on the mute command topic, from the body of
`VoiceAssistantStateTracker._listen_for_mute_commands`: the payload is
compared with `"ON"` to obtain the new flag, and only when that differs from
the stored flag is the flag stored, the switch state republished and the
registered callback invoked.  Output: new state, whether a state publish
happened, and the callback argument if the callback ran. -/
def handleMuteCommand (s : MuteState) (command : String) : MuteState × Bool × Option Bool :=
  let new_muted := command = "ON"
  if new_muted ≠ (s.is_muted = true) then
    ({ is_muted := new_muted }, true, some new_muted)
  else (s, false, none)

/-- C5 counterexample: the payload "banana" is neither "ON" nor "OFF", yet on
a muted assistant it is not ignored - it unmutes, because the listener
computes `new_muted = (command == "ON")` and treats every non-"ON" payload as
an unmute command. -/
theorem mute_command_other_payload_cex :
    ("banana" ≠ "ON" ∧ "banana" ≠ "OFF") ∧
    (handleMuteCommand { is_muted := true } "banana").1.is_muted = false ∧
    (handleMuteCommand { is_muted := true } "banana").2.1 = true := by
  refine ⟨⟨by decide, by decide⟩, ?_, ?_⟩ <;> rfl

/-- C5 (amended): the payload "ON" is the only mute command; every other
payload - "OFF" included - acts as an unmute command; a payload whose
resulting flag equals the stored flag changes nothing (no store, no publish,
no callback). -/
theorem mute_command_semantics (s : MuteState) (p : String) :
    (p = "ON" → s.is_muted = false →
      handleMuteCommand s p = ({ is_muted := true }, true, some true)) ∧
    (p ≠ "ON" → s.is_muted = true →
      handleMuteCommand s p = ({ is_muted := false }, true, some false)) ∧
    (p = "ON" → s.is_muted = true → handleMuteCommand s p = (s, false, none)) ∧
    (p ≠ "ON" → s.is_muted = false → handleMuteCommand s p = (s, false, none)) := by
  refine ⟨?_, ?_, ?_, ?_⟩
  · intro hp hm
    unfold handleMuteCommand
    rw [if_pos]
    · simp [hp]
    · simp [hp, hm]
  · intro hp hm
    unfold handleMuteCommand
    rw [if_pos]
    · simp [hp]
    · simp [hp, hm]
  · intro hp hm
    unfold handleMuteCommand
    rw [if_neg]
    simp [hp, hm]
  · intro hp hm
    unfold handleMuteCommand
    rw [if_neg]
    simp [hp, hm]

/-- Witness for C5's amended theorem: "ON" mutes an unmuted assistant, and
"OFF" unmutes a muted one. -/
theorem mute_command_semantics_witness :
    handleMuteCommand { is_muted := false } "ON" = ({ is_muted := true }, true, some true) ∧
    handleMuteCommand { is_muted := true } "OFF" = ({ is_muted := false }, true, some false) :=
  ⟨(mute_command_semantics { is_muted := false } "ON").1 rfl rfl,
   (mute_command_semantics { is_muted := true } "OFF").2.1 (by decide) rfl⟩

/-- One entry of `TimerManager.timers` (the `Timer` dataclass): name,
`duration_seconds`, `start_time`, and the countdown task's id. -/
structure TimerEntry where
  name : String
  duration_seconds : ℚ
  start_time : ℚ
  task : Nat
  deriving DecidableEq

/-- One `_timer_countdown` asyncio task: its id, the timer name it was
started for, and whether it has been cancelled or has finished running. -/
structure CountdownTask where
  id : Nat
  timerName : String
  cancelled : Bool
  done : Bool
  deriving DecidableEq

/-- State of `TimerManager`: the `timers` dict as an association list, plus
every countdown task ever created (asyncio keeps cancelled/finished task
objects around; `nextTaskId` numbers creations). -/
structure TMState where
  timers : List (String × TimerEntry)
  tasks : List CountdownTask
  nextTaskId : Nat
  deriving DecidableEq

/-- Dictionary lookup `self.timers[name]` / `name in self.timers`. -/
def findTimer (timers : List (String × TimerEntry)) (name : String) : Option TimerEntry :=
  match timers with
  | [] => none
  | p :: rest => if p.1 = name then some p.2 else findTimer rest name

/-- Dictionary deletion `del self.timers[name]`. -/
def removeTimer (timers : List (String × TimerEntry)) (name : String) :
    List (String × TimerEntry) :=
  timers.filter (fun p => p.1 ≠ name)

/-- The default name `f"{duration_minutes} minute timer"` used when `name` is
falsy (absent or empty). -/
def defaultName (duration_minutes : ℚ) : String :=
  toString duration_minutes ++ " minute timer"

/-- The `if not name:` default in `set_timer`: Python treats both an absent
and an empty name as falsy. -/
def resolveName (duration_minutes : ℚ) : Option String → String
  | none => defaultName duration_minutes
  | some n => if n = "" then defaultName duration_minutes else n

/-- `TimerManager.set_timer(duration_minutes, name)` at wall-clock `now`:
resolve the name (falsy names get the default derived from the duration),
reject a duplicate of a currently registered name, otherwise create the
countdown task, register the `Timer` record and confirm.  Note: the duration
is used as given - there is no positivity check. -/
def setTimer (s : TMState) (now duration_minutes : ℚ) (name : Option String) :
    TMState × String :=
  let resolved := resolveName duration_minutes name
  if (findTimer s.timers resolved).isSome then
    (s, "A timer named '" ++ resolved ++
        "' already exists. Please cancel it first or choose a different name.")
  else
    let duration_seconds := duration_minutes * 60
    ({ timers := s.timers ++
         [(resolved, { name := resolved, duration_seconds := duration_seconds,
                       start_time := now, task := s.nextTaskId })],
       tasks := s.tasks ++
         [{ id := s.nextTaskId, timerName := resolved, cancelled := false, done := false }],
       nextTaskId := s.nextTaskId + 1 },
     "Timer '" ++ resolved ++ "' set for " ++ toString duration_minutes ++ " minutes.")

/-- Mark the countdown task `id` as cancelled (`task.cancel()`). -/
def markCancelled (tasks : List CountdownTask) (id : Nat) : List CountdownTask :=
  tasks.map (fun t => if t.id = id then { t with cancelled := true } else t)

/-- Mark the countdown task `id` as finished. -/
def markDone (tasks : List CountdownTask) (id : Nat) : List CountdownTask :=
  tasks.map (fun t => if t.id = id then { t with done := true } else t)

/-- `TimerManager.cancel_timer(name)`: "not found" for an absent name;
otherwise cancel the entry's countdown task and delete the entry. -/
def cancelTimer (s : TMState) (name : String) : TMState × String :=
  match findTimer s.timers name with
  | none => (s, "No timer named '" ++ name ++ "' found.")
  | some e =>
    ({ s with
         tasks := markCancelled s.tasks e.task,
         timers := removeTimer s.timers name },
     "Timer '" ++ name ++ "' cancelled.")

/-- Resumption of countdown task `id` (`_timer_countdown` waking from its
sleep).  A task that was cancelled resumes with `CancelledError`: no
announcement, registry entry for its name deleted if still present.  An
uncancelled task completes its sleep: it emits the expiry announcement and
then deletes the registry entry for its name.  The second component is the
announcement, tagged with the task id, if one was emitted. -/
def fireTask (s : TMState) (id : Nat) : TMState × Option (Nat × String) :=
  match s.tasks.find? (fun t => t.id = id) with
  | none => (s, none)
  | some t =>
    if t.done then (s, none)
    else if t.cancelled then
      ({ s with tasks := markDone s.tasks id,
                timers := removeTimer s.timers t.timerName }, none)
    else
      ({ s with tasks := markDone s.tasks id,
                timers := removeTimer s.timers t.timerName },
       some (id, "Your timer '" ++ t.timerName ++ "' is done!"))

/-- The events that drive `TimerManager`: a set-timer request, a cancel
request, and a countdown task resuming from its sleep. -/
inductive TMEvent where
  | setT (now duration_minutes : ℚ) (name : Option String)
  | cancelT (name : String)
  | fireT (id : Nat)

/-- One step of the timer manager; the second component is the announcement
emitted during the step, if any. -/
def stepTM (s : TMState) : TMEvent → TMState × Option (Nat × String)
  | .setT now dm name => ((setTimer s now dm name).1, none)
  | .cancelT name => ((cancelTimer s name).1, none)
  | .fireT id => fireTask s id

/-- Freshly constructed `TimerManager`. -/
def tmInit : TMState := { timers := [], tasks := [], nextTaskId := 0 }

/-- Run the timer manager over an event sequence, collecting every
announcement emitted. -/
def runTM (evs : List TMEvent) : TMState × List (Nat × String) :=
  evs.foldl
    (fun acc ev =>
      let r := stepTM acc.1 ev
      (r.1, acc.2 ++ r.2.toList))
    (tmInit, [])

/-- The countdown task `id` has been cancelled in state `s`. -/
def cancelledId (s : TMState) (id : Nat) : Prop :=
  ∃ t ∈ s.tasks, t.id = id ∧ t.cancelled = true

lemma findTimer_eq_none_iff (l : List (String × TimerEntry)) (name : String) :
    findTimer l name = none ↔ ∀ p ∈ l, p.1 ≠ name := by
  induction l with
  | nil => simp [findTimer]
  | cons p rest ih =>
    unfold findTimer
    by_cases hp : p.1 = name
    · simp [hp]
    · simp only [if_neg hp, ih, List.mem_cons]
      constructor
      · intro h q hq
        rcases hq with hq | hq
        · rw [hq]; exact hp
        · exact h q hq
      · intro h q hq
        exact h q (Or.inr hq)

lemma findTimer_some_mem (l : List (String × TimerEntry)) (name : String)
    (e : TimerEntry) (h : findTimer l name = some e) : (name, e) ∈ l := by
  induction l with
  | nil => simp [findTimer] at h
  | cons p rest ih =>
    unfold findTimer at h
    by_cases hp : p.1 = name
    · rw [if_pos hp] at h
      have he : e = p.2 := by
        injection h with h
        exact h.symm
      have hpe : (name, e) = p := by
        rw [he, ← hp]
      rw [hpe]
      exact List.mem_cons_self p rest
    · rw [if_neg hp] at h
      exact List.mem_cons_of_mem p (ih h)

lemma mem_removeTimer (l : List (String × TimerEntry)) (name : String)
    (p : String × TimerEntry) :
    p ∈ removeTimer l name ↔ p ∈ l ∧ p.1 ≠ name := by
  unfold removeTimer
  simp [List.mem_filter]

lemma findTimer_removeTimer_self (l : List (String × TimerEntry)) (name : String) :
    findTimer (removeTimer l name) name = none := by
  rw [findTimer_eq_none_iff]
  intro p hp
  exact ((mem_removeTimer l name p).mp hp).2

lemma markCancelled_map_id (ts : List CountdownTask) (id : Nat) :
    (markCancelled ts id).map CountdownTask.id = ts.map CountdownTask.id := by
  unfold markCancelled
  rw [List.map_map]
  apply List.map_congr_left
  intro t _
  by_cases ht : t.id = id <;> simp [ht]

lemma markDone_map_id (ts : List CountdownTask) (id : Nat) :
    (markDone ts id).map CountdownTask.id = ts.map CountdownTask.id := by
  unfold markDone
  rw [List.map_map]
  apply List.map_congr_left
  intro t _
  by_cases ht : t.id = id <;> simp [ht]

lemma mem_markCancelled_of_ne (ts : List CountdownTask) (id : Nat)
    (t : CountdownTask) (ht : t ∈ ts) (hne : t.id ≠ id) : t ∈ markCancelled ts id := by
  unfold markCancelled
  have : (fun u => if u.id = id then { u with cancelled := true } else u) t = t := by
    simp [hne]
  rw [← this]
  exact List.mem_map_of_mem _ ht

lemma mem_markDone_of_ne (ts : List CountdownTask) (id : Nat)
    (t : CountdownTask) (ht : t ∈ ts) (hne : t.id ≠ id) : t ∈ markDone ts id := by
  unfold markDone
  have : (fun u => if u.id = id then { u with done := true } else u) t = t := by
    simp [hne]
  rw [← this]
  exact List.mem_map_of_mem _ ht

lemma mem_markCancelled (ts : List CountdownTask) (id : Nat) (t : CountdownTask)
    (ht : t ∈ markCancelled ts id) :
    ∃ u ∈ ts, t = if u.id = id then { u with cancelled := true } else u := by
  unfold markCancelled at ht
  rcases List.mem_map.mp ht with ⟨u, hu, hut⟩
  exact ⟨u, hu, hut.symm⟩

lemma mem_markDone (ts : List CountdownTask) (id : Nat) (t : CountdownTask)
    (ht : t ∈ markDone ts id) :
    ∃ u ∈ ts, t = if u.id = id then { u with done := true } else u := by
  unfold markDone at ht
  rcases List.mem_map.mp ht with ⟨u, hu, hut⟩
  exact ⟨u, hu, hut.symm⟩

/-- The well-formedness invariant tying the timer registry, the countdown
tasks and the emitted announcements together: every registered entry points to
a live (uncancelled, unfinished) task carrying its name; task ids are unique
and below the creation counter; registry names and registry task ids are
unique; and every announcement was emitted by a task now finished and never
cancelled. -/
structure TMInv (s : TMState) (anns : List (Nat × String)) : Prop where
  entryTask : ∀ p ∈ s.timers, ∃ t ∈ s.tasks,
    t.id = p.2.task ∧ t.timerName = p.1 ∧ t.cancelled = false ∧ t.done = false
  taskIds : (s.tasks.map CountdownTask.id).Nodup
  taskLt : ∀ t ∈ s.tasks, t.id < s.nextTaskId
  keyNodup : (s.timers.map Prod.fst).Nodup
  entryTaskNodup : (s.timers.map (fun p => p.2.task)).Nodup
  annDone : ∀ a ∈ anns, ∃ t ∈ s.tasks, t.id = a.1 ∧ t.done = true ∧ t.cancelled = false

lemma TMInv_tasks_inj (s : TMState) (anns : List (Nat × String)) (h : TMInv s anns)
    (t u : CountdownTask) (ht : t ∈ s.tasks) (hu : u ∈ s.tasks) (hid : t.id = u.id) :
    t = u :=
  List.inj_on_of_nodup_map h.taskIds ht hu hid

lemma TMInv_setTimer (s : TMState) (anns : List (Nat × String))
    (now dm : ℚ) (name : Option String) (h : TMInv s anns) :
    TMInv (setTimer s now dm name).1 anns := by
  unfold setTimer
  dsimp only
  split
  · exact h
  · rename_i hfind
    rw [Option.not_isSome_iff_eq_none] at hfind
    set resolved := resolveName dm name with hres
    constructor
    · intro p hp
      rcases List.mem_append.mp hp with hp | hp
      · rcases h.entryTask p hp with ⟨t, ht, hprops⟩
        exact ⟨t, List.mem_append_left _ ht, hprops⟩
      · simp only [List.mem_singleton] at hp
        refine ⟨{ id := s.nextTaskId, timerName := resolved,
                  cancelled := false, done := false },
                List.mem_append_right _ (List.mem_singleton.mpr rfl), ?_⟩
        rw [hp]
        exact ⟨rfl, rfl, rfl, rfl⟩
    · rw [List.map_append]
      apply List.Nodup.append h.taskIds (by simp)
      intro a ha hb
      simp only [List.map_cons, List.map_nil, List.mem_singleton] at hb
      rcases List.mem_map.mp ha with ⟨t, ht, hta⟩
      have := h.taskLt t ht
      rw [hta, hb] at this
      exact lt_irrefl _ this
    · intro t ht
      rcases List.mem_append.mp ht with ht | ht
      · exact lt_trans (h.taskLt t ht) (Nat.lt_succ_self _)
      · simp only [List.mem_singleton] at ht
        rw [ht]
        exact Nat.lt_succ_self _
    · rw [List.map_append]
      apply List.Nodup.append h.keyNodup (by simp)
      intro a ha hb
      simp only [List.map_cons, List.map_nil, List.mem_singleton] at hb
      rcases List.mem_map.mp ha with ⟨p, hp, hpa⟩
      have := (findTimer_eq_none_iff s.timers resolved).mp hfind p hp
      rw [hpa, hb] at this
      exact this rfl
    · rw [List.map_append]
      apply List.Nodup.append h.entryTaskNodup (by simp)
      intro a ha hb
      simp only [List.map_cons, List.map_nil, List.mem_singleton] at hb
      rcases List.mem_map.mp ha with ⟨p, hp, hpa⟩
      rcases h.entryTask p hp with ⟨t, ht, hid, _⟩
      have hlt := h.taskLt t ht
      rw [hid, hpa, hb] at hlt
      exact lt_irrefl _ hlt
    · intro a ha
      rcases h.annDone a ha with ⟨t, ht, hprops⟩
      exact ⟨t, List.mem_append_left _ ht, hprops⟩

lemma TMInv_cancelTimer (s : TMState) (anns : List (Nat × String)) (name : String)
    (h : TMInv s anns) : TMInv (cancelTimer s name).1 anns := by
  rcases hfind : findTimer s.timers name with _ | e
  · have hstep : cancelTimer s name = (s, "No timer named '" ++ name ++ "' found.") := by
      unfold cancelTimer
      rw [hfind]
    rw [hstep]
    exact h
  · have hstep : cancelTimer s name =
        ({ s with tasks := markCancelled s.tasks e.task,
                  timers := removeTimer s.timers name },
         "Timer '" ++ name ++ "' cancelled.") := by
      unfold cancelTimer
      rw [hfind]
    rw [hstep]
    have hmem := findTimer_some_mem s.timers name e hfind
    rcases h.entryTask (name, e) hmem with ⟨te, hte, hteid, htename, htec, hted⟩
    constructor
    · intro p hp
      have hp' := (mem_removeTimer _ _ _).mp hp
      rcases h.entryTask p hp'.1 with ⟨t, ht, htid, htn, htc, htd⟩
      have hne : t.id ≠ e.task := by
        intro heq
        have hpe : p = (name, e) :=
          List.inj_on_of_nodup_map h.entryTaskNodup hp'.1 hmem
            (by rw [← htid]; exact heq)
        exact hp'.2 (by rw [hpe])
      exact ⟨t, mem_markCancelled_of_ne _ _ t ht hne, htid, htn, htc, htd⟩
    · rw [markCancelled_map_id]
      exact h.taskIds
    · intro t ht
      rcases mem_markCancelled _ _ t ht with ⟨u, hu, htu⟩
      have hidu : t.id = u.id := by
        rw [htu]
        by_cases hc : u.id = e.task <;> simp [hc]
      rw [hidu]
      exact h.taskLt u hu
    · exact List.Nodup.sublist (List.Sublist.map _ (List.filter_sublist _)) h.keyNodup
    · exact List.Nodup.sublist (List.Sublist.map _ (List.filter_sublist _)) h.entryTaskNodup
    · intro a ha
      rcases h.annDone a ha with ⟨ta, hta, haid, had, hac⟩
      have hne : ta.id ≠ e.task := by
        intro heq
        have hta_te : ta = te :=
          TMInv_tasks_inj s anns h ta te hta hte (by rw [heq, hteid])
        rw [hta_te, hted] at had
        cases had
      exact ⟨ta, mem_markCancelled_of_ne _ _ ta hta hne, haid, had, hac⟩

lemma TMInv_fireTask (s : TMState) (anns : List (Nat × String)) (id : Nat)
    (h : TMInv s anns) :
    TMInv (fireTask s id).1 (anns ++ (fireTask s id).2.toList) := by
  rcases hfind : s.tasks.find? (fun t => t.id = id) with _ | t
  · have hstep : fireTask s id = (s, none) := by
      unfold fireTask
      rw [hfind]
    rw [hstep]
    simpa using h
  · have ht : t ∈ s.tasks := List.mem_of_find?_eq_some hfind
    have hid : t.id = id := by simpa using List.find?_some hfind
    by_cases hdone : t.done = true
    · have hstep : fireTask s id = (s, none) := by
        unfold fireTask
        rw [hfind]
        dsimp only
        rw [if_pos hdone]
      rw [hstep]
      simpa using h
    · by_cases hcanc : t.cancelled = true
      · have hstep : fireTask s id =
            ({ s with tasks := markDone s.tasks id,
                      timers := removeTimer s.timers t.timerName }, none) := by
          unfold fireTask
          rw [hfind]
          dsimp only
          rw [if_neg hdone, if_pos hcanc]
        rw [hstep]
        simp only [List.append_nil, Option.toList_none]
        constructor
        · intro p hp
          have hp' := (mem_removeTimer _ _ _).mp hp
          rcases h.entryTask p hp'.1 with ⟨tp, htp, htpid, htpn, htpc, htpd⟩
          have hne : tp.id ≠ id := by
            intro heq
            have htp_t : tp = t :=
              TMInv_tasks_inj s anns h tp t htp ht (by rw [heq, hid])
            rw [htp_t, hcanc] at htpc
            cases htpc
          exact ⟨tp, mem_markDone_of_ne _ _ tp htp hne, htpid, htpn, htpc, htpd⟩
        · rw [markDone_map_id]
          exact h.taskIds
        · intro u hu
          rcases mem_markDone _ _ u hu with ⟨v, hv, huv⟩
          have hidv : u.id = v.id := by
            rw [huv]
            by_cases hc : v.id = id <;> simp [hc]
          rw [hidv]
          exact h.taskLt v hv
        · exact List.Nodup.sublist (List.Sublist.map _ (List.filter_sublist _)) h.keyNodup
        · exact List.Nodup.sublist (List.Sublist.map _ (List.filter_sublist _)) h.entryTaskNodup
        · intro a ha
          rcases h.annDone a ha with ⟨ta, hta, haid, had, hac⟩
          have hne : ta.id ≠ id := by
            intro heq
            have hta_t : ta = t :=
              TMInv_tasks_inj s anns h ta t hta ht (by rw [heq, hid])
            rw [hta_t] at had
            rw [had] at hdone
            exact hdone rfl
          exact ⟨ta, mem_markDone_of_ne _ _ ta hta hne, haid, had, hac⟩
      · have hcf : t.cancelled = false := by
          cases hc2 : t.cancelled with
          | false => rfl
          | true => exact absurd hc2 hcanc
        have hstep : fireTask s id =
            ({ s with tasks := markDone s.tasks id,
                      timers := removeTimer s.timers t.timerName },
             some (id, "Your timer '" ++ t.timerName ++ "' is done!")) := by
          unfold fireTask
          rw [hfind]
          dsimp only
          rw [if_neg hdone, if_neg hcanc]
        rw [hstep]
        constructor
        · intro p hp
          have hp' := (mem_removeTimer _ _ _).mp hp
          rcases h.entryTask p hp'.1 with ⟨tp, htp, htpid, htpn, htpc, htpd⟩
          have hne : tp.id ≠ id := by
            intro heq
            have htp_t : tp = t :=
              TMInv_tasks_inj s anns h tp t htp ht (by rw [heq, hid])
            rw [htp_t] at htpn
            exact hp'.2 htpn.symm
          exact ⟨tp, mem_markDone_of_ne _ _ tp htp hne, htpid, htpn, htpc, htpd⟩
        · rw [markDone_map_id]
          exact h.taskIds
        · intro u hu
          rcases mem_markDone _ _ u hu with ⟨v, hv, huv⟩
          have hidv : u.id = v.id := by
            rw [huv]
            by_cases hc : v.id = id <;> simp [hc]
          rw [hidv]
          exact h.taskLt v hv
        · exact List.Nodup.sublist (List.Sublist.map _ (List.filter_sublist _)) h.keyNodup
        · exact List.Nodup.sublist (List.Sublist.map _ (List.filter_sublist _)) h.entryTaskNodup
        · intro a ha
          rcases List.mem_append.mp ha with ha | ha
          · rcases h.annDone a ha with ⟨ta, hta, haid, had, hac⟩
            have hne : ta.id ≠ id := by
              intro heq
              have hta_t : ta = t :=
                TMInv_tasks_inj s anns h ta t hta ht (by rw [heq, hid])
              rw [hta_t] at had
              rw [had] at hdone
              exact hdone rfl
            exact ⟨ta, mem_markDone_of_ne _ _ ta hta hne, haid, had, hac⟩
          · simp only [Option.toList_some, List.mem_singleton] at ha
            refine ⟨{ t with done := true }, ?_, by rw [ha, hid], rfl, hcf⟩
            have hmap : (fun u => if u.id = id then { u with done := true } else u) t =
                { t with done := true } := by
              simp [hid]
            rw [← hmap]
            exact List.mem_map_of_mem _ ht

lemma TMInv_stepTM (s : TMState) (anns : List (Nat × String)) (ev : TMEvent)
    (h : TMInv s anns) :
    TMInv (stepTM s ev).1 (anns ++ (stepTM s ev).2.toList) := by
  cases ev with
  | setT now dm name => simpa [stepTM] using TMInv_setTimer s anns now dm name h
  | cancelT name => simpa [stepTM] using TMInv_cancelTimer s anns name h
  | fireT id => exact TMInv_fireTask s anns id h

lemma TMInv_foldTM (l : List TMEvent) :
    ∀ acc : TMState × List (Nat × String), TMInv acc.1 acc.2 →
      TMInv ((l.foldl (fun acc ev =>
          let r := stepTM acc.1 ev
          (r.1, acc.2 ++ r.2.toList)) acc).1)
        ((l.foldl (fun acc ev =>
          let r := stepTM acc.1 ev
          (r.1, acc.2 ++ r.2.toList)) acc).2) := by
  induction l with
  | nil =>
    intro acc h
    simpa using h
  | cons e rest ih =>
    intro acc h
    rw [List.foldl_cons]
    exact ih _ (TMInv_stepTM acc.1 acc.2 e h)

lemma TMInv_tmInit : TMInv tmInit [] := by
  constructor <;> simp [tmInit]

lemma TMInv_runTM (evs : List TMEvent) : TMInv (runTM evs).1 (runTM evs).2 := by
  unfold runTM
  exact TMInv_foldTM evs (tmInit, []) TMInv_tmInit

lemma setTimer_fresh (s : TMState) (now dm : ℚ) (nm : Option String)
    (hfree : findTimer s.timers (resolveName dm nm) = none) :
    setTimer s now dm nm =
      ({ timers := s.timers ++
           [(resolveName dm nm,
             { name := resolveName dm nm, duration_seconds := dm * 60,
               start_time := now, task := s.nextTaskId })],
         tasks := s.tasks ++
           [{ id := s.nextTaskId, timerName := resolveName dm nm,
              cancelled := false, done := false }],
         nextTaskId := s.nextTaskId + 1 },
       "Timer '" ++ resolveName dm nm ++ "' set for " ++ toString dm ++ " minutes.") := by
  unfold setTimer
  dsimp only
  rw [hfree]
  rw [if_neg (by simp)]

lemma setTimer_dup (s : TMState) (now dm : ℚ) (nm : Option String) (e : TimerEntry)
    (hdup : findTimer s.timers (resolveName dm nm) = some e) :
    setTimer s now dm nm =
      (s, "A timer named '" ++ resolveName dm nm ++
          "' already exists. Please cancel it first or choose a different name.") := by
  unfold setTimer
  dsimp only
  rw [hdup]
  rw [if_pos (show (some e).isSome = true from rfl)]

lemma findTimer_append_of_none (l1 l2 : List (String × TimerEntry)) (name : String)
    (h : findTimer l1 name = none) :
    findTimer (l1 ++ l2) name = findTimer l2 name := by
  induction l1 with
  | nil => rfl
  | cons p rest ih =>
    simp only [List.cons_append, findTimer] at h ⊢
    by_cases hp : p.1 = name
    · rw [if_pos hp] at h
      cases h
    · rw [if_neg hp] at h ⊢
      exact ih h

/-- Number of registry entries carrying a given name. -/
def countName (timers : List (String × TimerEntry)) (name : String) : Nat :=
  (timers.filter (fun p => p.1 = name)).length

lemma countName_of_findTimer_none (l : List (String × TimerEntry)) (name : String)
    (h : findTimer l name = none) : countName l name = 0 := by
  unfold countName
  rw [List.filter_eq_nil_iff.mpr, List.length_nil]
  intro p hp
  simpa using (findTimer_eq_none_iff l name).mp h p hp

/-- C6 counterexample: a `set_timer` request with duration 0 - not a positive
duration - is not rejected: it registers a timer under the default name,
starts a countdown task, and returns the normal confirmation message. -/
theorem set_timer_zero_duration_cex :
    ¬ ((0 : ℚ) > 0) ∧
    (setTimer tmInit 0 0 none).1.timers.length = 1 ∧
    (setTimer tmInit 0 0 none).1.tasks.length = 1 ∧
    (setTimer tmInit 0 0 none).2 = "Timer '0 minute timer' set for 0 minutes." := by
  refine ⟨by norm_num, ?_, ?_, ?_⟩ <;> rfl

/-- C6 (amended): `set_timer` applies no validation to the duration: for
every duration, zero and negative included, a request whose resolved name is
not currently active registers a timer with `duration_seconds` equal to
sixty times the given duration, starts a fresh countdown task, and returns
the confirmation message - nothing is ever rejected on account of the
duration. -/
theorem set_timer_no_duration_validation (s : TMState) (now dm : ℚ) (nm : String)
    (hnm : nm ≠ "") (hfree : findTimer s.timers nm = none) :
    (setTimer s now dm (some nm)).1.timers =
      s.timers ++ [(nm, { name := nm, duration_seconds := dm * 60,
                          start_time := now, task := s.nextTaskId })] ∧
    (setTimer s now dm (some nm)).1.tasks =
      s.tasks ++ [{ id := s.nextTaskId, timerName := nm,
                    cancelled := false, done := false }] ∧
    (setTimer s now dm (some nm)).2 =
      "Timer '" ++ nm ++ "' set for " ++ toString dm ++ " minutes." := by
  have hres : resolveName dm (some nm) = nm := by simp [resolveName, hnm]
  have hfree' : findTimer s.timers (resolveName dm (some nm)) = none := by
    rw [hres]
    exact hfree
  rw [setTimer_fresh s now dm (some nm) hfree', hres]
  exact ⟨rfl, rfl, rfl⟩

/-- Witness for C6's amended theorem: duration 0, a fresh manager and the
name "tea" - the timer is registered and confirmed. -/
theorem set_timer_no_duration_validation_witness :
    (setTimer tmInit 0 0 (some "tea")).1.timers =
      [("tea", { name := "tea", duration_seconds := 0 * 60, start_time := 0, task := 0 })] ∧
    (setTimer tmInit 0 0 (some "tea")).2 = "Timer 'tea' set for 0 minutes." := by
  have h := set_timer_no_duration_validation tmInit 0 0 "tea" (by decide) rfl
  refine ⟨?_, ?_⟩
  · rw [h.1]
    rfl
  · rw [h.2.2]
    rfl

lemma findTimer_cons_self (e : TimerEntry) (rest : List (String × TimerEntry))
    (name : String) : findTimer ((name, e) :: rest) name = some e := by
  simp [findTimer]

/-- C7: a second `set_timer` call with a still-active name is rejected with
the "already exists" message and mutates nothing: the state is returned
unchanged, exactly one timer with that name remains registered, its duration,
start time and task are those of the first call, and no new countdown task is
created (the creation counter is untouched). -/
theorem duplicate_timer_name_rejected (s : TMState) (now1 now2 dm1 dm2 : ℚ)
    (name : String) (hnm : name ≠ "") (hfree : findTimer s.timers name = none) :
    countName ((setTimer s now1 dm1 (some name)).1).timers name = 1 ∧
    findTimer ((setTimer s now1 dm1 (some name)).1).timers name =
      some { name := name, duration_seconds := dm1 * 60,
             start_time := now1, task := s.nextTaskId } ∧
    setTimer ((setTimer s now1 dm1 (some name)).1) now2 dm2 (some name) =
      ((setTimer s now1 dm1 (some name)).1,
       "A timer named '" ++ name ++
       "' already exists. Please cancel it first or choose a different name.") := by
  have hres1 : resolveName dm1 (some name) = name := by simp [resolveName, hnm]
  have hres2 : resolveName dm2 (some name) = name := by simp [resolveName, hnm]
  have hfree1 : findTimer s.timers (resolveName dm1 (some name)) = none := by
    rw [hres1]
    exact hfree
  have hstep1 := setTimer_fresh s now1 dm1 (some name) hfree1
  rw [hstep1, hres1]
  have hfind1 : findTimer
      (s.timers ++ [(name, { name := name, duration_seconds := dm1 * 60,
                             start_time := now1, task := s.nextTaskId })]) name =
      some { name := name, duration_seconds := dm1 * 60,
             start_time := now1, task := s.nextTaskId } := by
    rw [findTimer_append_of_none s.timers _ name hfree]
    exact findTimer_cons_self _ _ _
  refine ⟨?_, hfind1, ?_⟩
  · unfold countName
    rw [List.filter_append]
    have hnil : s.timers.filter (fun p => p.1 = name) = [] := by
      rw [List.filter_eq_nil_iff]
      intro p hp
      simpa using (findTimer_eq_none_iff s.timers name).mp hfree p hp
    rw [hnil]
    simp
  · have hdup : findTimer
        (s.timers ++ [(name, { name := name, duration_seconds := dm1 * 60,
                               start_time := now1, task := s.nextTaskId })])
        (resolveName dm2 (some name)) =
        some { name := name, duration_seconds := dm1 * 60,
               start_time := now1, task := s.nextTaskId } := by
      rw [hres2]
      exact hfind1
    have := setTimer_dup
      { timers := s.timers ++
          [(name, { name := name, duration_seconds := dm1 * 60,
                    start_time := now1, task := s.nextTaskId })],
        tasks := s.tasks ++
          [{ id := s.nextTaskId, timerName := name, cancelled := false, done := false }],
        nextTaskId := s.nextTaskId + 1 }
      now2 dm2 (some name) _ hdup
    rw [this, hres2]

/-- Witness for C7 at a fresh manager: setting "pasta" then setting "pasta"
again yields exactly one registered "pasta" timer and the rejection
message. -/
theorem duplicate_timer_name_rejected_witness :
    countName ((setTimer tmInit 0 5 (some "pasta")).1).timers "pasta" = 1 ∧
    (setTimer ((setTimer tmInit 0 5 (some "pasta")).1) 1 7 (some "pasta")).2 =
      "A timer named 'pasta' already exists. Please cancel it first or choose a different name." := by
  have h := duplicate_timer_name_rejected tmInit 0 1 5 7 "pasta" (by decide) rfl
  refine ⟨h.1, ?_⟩
  rw [h.2.2]
  rfl

/-- C10: a falsy name argument (absent or empty) resolves to the
deterministic default name "<duration_minutes> minute timer" built from the
duration, so two no-name calls with the same duration collide: the first
registers under the default name and the second is rejected as a duplicate
while the first registration stays untouched. -/
theorem default_timer_name_collision (s : TMState) (now1 now2 dm : ℚ)
    (nm1 nm2 : Option String) (h1 : nm1 = none ∨ nm1 = some "")
    (h2 : nm2 = none ∨ nm2 = some "")
    (hfree : findTimer s.timers (defaultName dm) = none) :
    defaultName dm = toString dm ++ " minute timer" ∧
    findTimer ((setTimer s now1 dm nm1).1).timers (defaultName dm) =
      some { name := defaultName dm, duration_seconds := dm * 60,
             start_time := now1, task := s.nextTaskId } ∧
    setTimer ((setTimer s now1 dm nm1).1) now2 dm nm2 =
      ((setTimer s now1 dm nm1).1,
       "A timer named '" ++ defaultName dm ++
       "' already exists. Please cancel it first or choose a different name.") := by
  have hres1 : resolveName dm nm1 = defaultName dm := by
    rcases h1 with rfl | rfl <;> simp [resolveName]
  have hres2 : resolveName dm nm2 = defaultName dm := by
    rcases h2 with rfl | rfl <;> simp [resolveName]
  have hfree1 : findTimer s.timers (resolveName dm nm1) = none := by
    rw [hres1]
    exact hfree
  have hstep1 := setTimer_fresh s now1 dm nm1 hfree1
  rw [hstep1, hres1]
  have hfind1 : findTimer
      (s.timers ++ [(defaultName dm,
        { name := defaultName dm, duration_seconds := dm * 60,
          start_time := now1, task := s.nextTaskId })]) (defaultName dm) =
      some { name := defaultName dm, duration_seconds := dm * 60,
             start_time := now1, task := s.nextTaskId } := by
    rw [findTimer_append_of_none s.timers _ _ hfree]
    exact findTimer_cons_self _ _ _
  refine ⟨rfl, hfind1, ?_⟩
  have hdup : findTimer
      (s.timers ++ [(defaultName dm,
        { name := defaultName dm, duration_seconds := dm * 60,
          start_time := now1, task := s.nextTaskId })]) (resolveName dm nm2) =
      some { name := defaultName dm, duration_seconds := dm * 60,
             start_time := now1, task := s.nextTaskId } := by
    rw [hres2]
    exact hfind1
  have := setTimer_dup
    { timers := s.timers ++
        [(defaultName dm,
          { name := defaultName dm, duration_seconds := dm * 60,
            start_time := now1, task := s.nextTaskId })],
      tasks := s.tasks ++
        [{ id := s.nextTaskId, timerName := defaultName dm,
           cancelled := false, done := false }],
      nextTaskId := s.nextTaskId + 1 }
    now2 dm nm2 _ hdup
  rw [this, hres2]

/-- Witness for C10: two no-name 5-minute requests on a fresh manager; the
second is rejected naming the default "5 minute timer". -/
theorem default_timer_name_collision_witness :
    defaultName 5 = "5 minute timer" ∧
    (setTimer ((setTimer tmInit 0 5 none).1) 1 5 none).2 =
      "A timer named '5 minute timer' already exists. Please cancel it first or choose a different name." := by
  have h := default_timer_name_collision tmInit 0 1 5 none none (Or.inl rfl) (Or.inl rfl) rfl
  refine ⟨?_, ?_⟩
  · rw [h.1]
    rfl
  · rw [h.2.2]
    rfl

/-- C8: per countdown task, cancellation and natural expiry are mutually
exclusive outcomes: cancelling an active timer removes its registry entry,
marks its task cancelled and returns the confirmation; a cancelled task's
resumption emits no announcement; cancelling an absent name returns the
"not found" message with the state unchanged (and, being a total function,
never raises); the resumption of a live (uncancelled, unfinished) task emits
exactly the expiry announcement for its timer; and over every event sequence
no announcement ever belongs to a cancelled task. -/
theorem timer_cancel_expiry_exclusive :
    (∀ (s : TMState) (name : String) (e : TimerEntry),
      findTimer s.timers name = some e →
      cancelTimer s name =
        ({ s with tasks := markCancelled s.tasks e.task,
                  timers := removeTimer s.timers name },
         "Timer '" ++ name ++ "' cancelled.") ∧
      findTimer (cancelTimer s name).1.timers name = none) ∧
    (∀ (s : TMState) (id : Nat) (t : CountdownTask),
      s.tasks.find? (fun u => u.id = id) = some t → t.cancelled = true →
      (fireTask s id).2 = none) ∧
    (∀ (s : TMState) (name : String),
      findTimer s.timers name = none →
      cancelTimer s name = (s, "No timer named '" ++ name ++ "' found.")) ∧
    (∀ (s : TMState) (id : Nat) (t : CountdownTask),
      s.tasks.find? (fun u => u.id = id) = some t →
      t.cancelled = false → t.done = false →
      (fireTask s id).2 = some (id, "Your timer '" ++ t.timerName ++ "' is done!")) ∧
    (∀ (evs : List TMEvent) (a : Nat × String),
      a ∈ (runTM evs).2 → ¬ cancelledId (runTM evs).1 a.1) := by
  refine ⟨?_, ?_, ?_, ?_, ?_⟩
  · intro s name e hfind
    have hstep : cancelTimer s name =
        ({ s with tasks := markCancelled s.tasks e.task,
                  timers := removeTimer s.timers name },
         "Timer '" ++ name ++ "' cancelled.") := by
      unfold cancelTimer
      rw [hfind]
    refine ⟨hstep, ?_⟩
    rw [hstep]
    exact findTimer_removeTimer_self _ _
  · intro s id t hfind hcanc
    unfold fireTask
    rw [hfind]
    dsimp only
    by_cases hdone : t.done = true
    · rw [if_pos hdone]
    · rw [if_neg hdone, if_pos hcanc]
  · intro s name hfind
    unfold cancelTimer
    rw [hfind]
  · intro s id t hfind hcanc hdone
    unfold fireTask
    rw [hfind]
    dsimp only
    rw [if_neg (by rw [hdone]; simp), if_neg (by rw [hcanc]; simp)]
  · intro evs a ha hc
    have hinv := TMInv_runTM evs
    rcases hinv.annDone a ha with ⟨ta, hta, haid, had, hac⟩
    rcases hc with ⟨tc, htc, hcid, hcc⟩
    have hee : ta = tc :=
      TMInv_tasks_inj _ _ hinv ta tc hta htc (by rw [haid, hcid])
    rw [hee, hcc] at hac
    cases hac

/-- A live countdown task and a cancelled one, for the C8 witness. -/
def liveTaskEx : CountdownTask :=
  { id := 0, timerName := "pasta", cancelled := false, done := false }

/-- Manager holding only the live task. -/
def liveTMEx : TMState := { timers := [], tasks := [liveTaskEx], nextTaskId := 1 }

/-- Manager holding only the cancelled version of the task. -/
def cancTMEx : TMState :=
  { timers := [],
    tasks := [{ id := 0, timerName := "pasta", cancelled := true, done := false }],
    nextTaskId := 1 }

/-- Witness for C8: cancelling an absent "pasta" is a safe "not found"; the
cancelled task's resumption announces nothing; the live task's natural expiry
announces "pasta". -/
theorem timer_cancel_expiry_exclusive_witness :
    cancelTimer tmInit "pasta" = (tmInit, "No timer named 'pasta' found.") ∧
    (fireTask cancTMEx 0).2 = none ∧
    (fireTask liveTMEx 0).2 = some (0, "Your timer 'pasta' is done!") := by
  refine ⟨?_, ?_, ?_⟩
  · rw [timer_cancel_expiry_exclusive.2.2.1 tmInit "pasta" rfl]
    rfl
  · exact timer_cancel_expiry_exclusive.2.1 cancTMEx 0
      { id := 0, timerName := "pasta", cancelled := true, done := false } rfl rfl
  · rw [timer_cancel_expiry_exclusive.2.2.2.1 liveTMEx 0 liveTaskEx rfl rfl rfl]
    rfl

/-- Python's `\w` word character over the ASCII transcripts at hand: letters,
digits, underscore. -/
def isWordChar (c : Char) : Bool := c.isAlphanum || c == '_'

/-- `InterruptHandler.INTERRUPT_PHRASES`, each pattern written
`\b<phrase>\b`; the phrase texts, in source order. -/
def INTERRUPT_PHRASES : List String :=
  ["shut up", "stop talking", "be quiet", "quiet", "cancel", "never mind", "nevermind"]

/-- `re.search(r"\b<phrase>\b", text)` restricted to phrases that start and
end with word characters (as all of `INTERRUPT_PHRASES` do): the phrase
occurs at position `i`, the character before `i` (if any) is not a word
character, and the character right after the occurrence (if any) is not a
word character. -/
def boundaryMatchAt (text phr : List Char) (i : Nat) : Bool :=
  phr.isPrefixOf (text.drop i) &&
  (decide (i = 0) || !isWordChar (text.getD (i - 1) ' ')) &&
  (decide (text.length ≤ i + phr.length) || !isWordChar (text.getD (i + phr.length) ' '))

/-- Search the whole text for a word-boundary occurrence of the phrase. -/
def wordBoundarySearch (phr text : List Char) : Bool :=
  (List.range (text.length + 1)).any (fun i => boundaryMatchAt text phr i)

/-- `str.lower()` over the transcript's characters (ASCII case mapping). -/
def lowerChars (l : List Char) : List Char := l.map Char.toLower

/-- `str.strip()`: drop whitespace from both ends. -/
def trimChars (l : List Char) : List Char :=
  ((l.dropWhile Char.isWhitespace).reverse.dropWhile Char.isWhitespace).reverse

/-- The phrase loop of `InterruptHandler.process_frame` applied to
`frame.text.lower().strip()`: some interrupt phrase matches with word
boundaries. -/
def interruptMatch (text : String) : Bool :=
  INTERRUPT_PHRASES.any
    (fun p => wordBoundarySearch p.toList (trimChars (lowerChars text.toList)))

/-- `InterruptHandler.process_frame`: a transcription matching an interrupt
phrase is suppressed - a `CancelFrame` is pushed instead and the wake
processor is put to sleep; every other frame passes through.  The second
component lists the frames pushed downstream. -/
def interruptStep (gate : GateState) (f : Frame) : GateState × List Frame :=
  match f with
  | .transcription t =>
    if interruptMatch t then (goToSleep gate, [Frame.cancel])
    else (gate, [Frame.transcription t])
  | f' => (gate, [f'])

lemma goToSleep_not_awake (s : GateState) : (goToSleep s).is_awake = false := by
  unfold goToSleep
  split
  · have := (cancelKeepalive_fields { s with is_awake := false }).1
    simpa using this
  · rename_i hs
    exact Bool.eq_false_iff.mpr hs

/-- C9: a transcript matches exactly when some phrase of the fixed interrupt
list occurs with word boundaries in the lower-cased, trimmed transcript; a
matching transcript is suppressed (only a cancellation frame is pushed) and
the wake gate ends up not awake; a non-matching transcript passes unchanged;
and concretely "quietude" and "quietly" do not match while "please be quiet
now" does. -/
theorem interrupt_detection (gate : GateState) (t : String) :
    (interruptMatch t = true ↔ ∃ p ∈ INTERRUPT_PHRASES,
      wordBoundarySearch p.toList (trimChars (lowerChars t.toList)) = true) ∧
    (interruptMatch t = true →
      interruptStep gate (.transcription t) = (goToSleep gate, [Frame.cancel]) ∧
      (goToSleep gate).is_awake = false) ∧
    (interruptMatch t = false →
      interruptStep gate (.transcription t) = (gate, [Frame.transcription t])) ∧
    (interruptMatch "quietude" = false ∧ interruptMatch "quietly" = false ∧
     interruptMatch "please be quiet now" = true) := by
  refine ⟨?_, ?_, ?_, ?_, ?_, ?_⟩
  · simp [interruptMatch, List.any_eq_true]
  · intro h
    refine ⟨?_, goToSleep_not_awake gate⟩
    unfold interruptStep
    dsimp only
    rw [if_pos h]
  · intro h
    unfold interruptStep
    dsimp only
    rw [if_neg (by rw [h]; simp)]
  · decide
  · decide
  · decide

/-- Witness for C9: "be quiet" is suppressed and puts the gate to sleep,
"hello there" passes through. -/
theorem interrupt_detection_witness :
    interruptStep gateInit (Frame.transcription "be quiet") =
      (goToSleep gateInit, [Frame.cancel]) ∧
    interruptStep gateInit (Frame.transcription "hello there") =
      (gateInit, [Frame.transcription "hello there"]) := by
  refine ⟨?_, ?_⟩
  · exact ((interrupt_detection gateInit "be quiet").2.1 (by decide)).1
  · exact (interrupt_detection gateInit "hello there").2.2.1 (by decide)
